import Mathlib

/-!
Verification development for the CORS-CLOUD NAS server.

The definitions below are a shallow embedding of the access-control core of
the server: the path guard of `server.js` (function `isValidPath` and the
resolution performed by the browse and download handlers), the middleware of
`middleware.js` (`requireAdmin`, `checkSetup`, `createRateLimiter`), the
setup API handler and the user-deletion handler of `server.js`, and the
relevant database queries of `database.js` (`getUserById`, `deleteUser`,
`isSetupCompleted`, `hasAdminUser`).

Paths are modelled as strings over the POSIX separator.  `resolvePath`
models the Node `path.resolve(base, p)` call for an absolute `base`:
an absolute `p` wins, otherwise the segments of `p` are appended to those
of `base`; `.` and empty segments are dropped and `..` pops one segment.
`strStartsWith` models the JavaScript `String.prototype.startsWith`.
-/

/-- Model of JavaScript `s.startsWith(pre)`: character-list prefix test. -/
def strStartsWith (s pre : String) : Bool :=
  pre.data.isPrefixOf s.data

/-- Split a character list on the separator character, keeping empty segments. -/
def splitOnSlash : List Char → List (List Char)
  | [] => [[]]
  | c :: cs =>
    let rest := splitOnSlash cs
    if c == '/' then [] :: rest
    else match rest with
      | [] => [[c]]
      | seg :: segs => (c :: seg) :: segs

/-- Segments of a path string, dropping empty segments and single dots,
as the normalization inside Node `path.resolve` does. -/
def pathSegs (s : String) : List (List Char) :=
  (splitOnSlash s.data).filter (fun seg => seg != [] && seg != ['.'])

/-- Resolution of `..` segments against already-collected segments; a `..`
at the root is dropped, as for absolute paths in Node `path.resolve`. -/
def normSegs (segs : List (List Char)) : List (List Char) :=
  segs.foldl (fun acc seg => if seg == ['.', '.'] then acc.dropLast else acc ++ [seg]) []

/-- Join segments back into an absolute path string. -/
def joinAbs (segs : List (List Char)) : String :=
  String.mk ('/' :: List.intercalate ['/'] segs)

/-- Model of Node `path.resolve(base, p)` for an absolute, already normalized
`base`: if `p` is absolute it wins, otherwise it is resolved against `base`. -/
def resolvePath (base p : String) : String :=
  if strStartsWith p "/" then joinAbs (normSegs (pathSegs p))
  else joinAbs (normSegs (pathSegs base ++ pathSegs p))

/-- Model of the JavaScript `requestedPath.replace(/^\/+/, '')` in
`isValidPath` (server.js line 93). -/
def stripLeadingSlashes (p : String) : String :=
  String.mk (p.data.dropWhile (fun c => c == '/'))

/-- Model of `isValidPath` (server.js lines 92-98), parametrized by the two
configured constants: `root` is `NAS_ROOT` and `cors` is the resolved server
installation directory (`__dirname`).  The requested path is resolved with
its leading slashes stripped, and accepted iff the resolved string starts
with the representation of `root` and not with the representation of `cors`. -/
def isValidPath (root cors p : String) : Bool :=
  let fullPath := resolvePath root (stripLeadingSlashes p)
  strStartsWith fullPath root && !(strStartsWith fullPath cors)

/-- Resolution performed by the download handler (server.js line 504):
`path.resolve(NAS_ROOT, requestedPath)` with NO stripping of leading
slashes, unlike the resolution checked by `isValidPath`. -/
def downloadResolved (root p : String) : String :=
  resolvePath root p

/-- Resolution performed by the browse handler (server.js line 445), which
matches the one checked by `isValidPath`. -/
def validationResolved (root p : String) : String :=
  resolvePath root (stripLeadingSlashes p)

/-- Directory-tree containment on absolute path strings: `p` is `anc`
itself or lies strictly below it (its string extends `anc` followed by a
separator).  This is the honest notion of being inside a subtree, as
opposed to the raw string-prefix test the code uses. -/
def isDescendantOrSelf (anc p : String) : Bool :=
  p == anc || strStartsWith p (anc ++ "/")

/-- Containment of a character pattern inside a character list; used to
state that a requested path contains a parent-directory traversal. -/
def hasInfixChars (pat : List Char) : List Char → Bool
  | [] => pat.isPrefixOf []
  | c :: cs => pat.isPrefixOf (c :: cs) || hasInfixChars pat cs

/-! Helper lemmas about the string-prefix test. -/

/-! Data model: user records and settings, from database.js. -/

/-- A row of the `users` table (database.js lines 47-60): the columns the
access-control core reads.  `isActive` models `is_active`. -/
structure UserRec where
  id : Nat
  username : String
  role : String
  isActive : Bool
deriving DecidableEq

/-- Model of `Database.getUserById` (database.js lines 210-225): the query
filters on `id = ? AND is_active = 1`, so an inactive user resolves to no
row at all. -/
def getUserById (users : List UserRec) (uid : Nat) : Option UserRec :=
  users.find? (fun u => u.id == uid && u.isActive)

/-- Model of `Database.getSetting` (database.js lines 345-361). -/
def getSetting (settings : List (String × String)) (key : String) : Option String :=
  (settings.find? (fun kv => kv.1 == key)).map (fun kv => kv.2)

/-- Model of `Database.isSetupCompleted` (database.js lines 402-406):
the stored value must be exactly the string true. -/
def isSetupCompleted (settings : List (String × String)) : Bool :=
  getSetting settings "setup_completed" == some "true"

/-- Model of `Database.hasAdminUser` (database.js lines 408-424): counts
rows with `role = admin AND is_active = 1`. -/
def hasAdminUser (users : List UserRec) : Bool :=
  users.any (fun u => u.role == "admin" && u.isActive)

/-- The two conditions the setup gate re-reads on every request. -/
structure SetupStatus where
  setupCompleted : Bool
  hasAdmin : Bool
deriving DecidableEq

/-- The setup status derived from the backing store. -/
def setupStatusOf (settings : List (String × String)) (users : List UserRec) : SetupStatus :=
  ⟨isSetupCompleted settings, hasAdminUser users⟩

/-! The admin middleware, from middleware.js lines 23-50. -/

/-- Outcome of the `requireAdmin` middleware. -/
inductive AdminOutcome where
  | unauthenticated
  | forbidden
  | internalError
  | ok (u : UserRec)
deriving DecidableEq

/-- Model of `requireAdmin` (middleware.js lines 23-50).  `fetch` models
the awaited `database.getUserById` call: `Except.error` is a rejected
promise (transport or storage failure), `Except.ok` the resolved row.
The second component collects the log events emitted on each branch. -/
def requireAdmin (sessionUserId : Option Nat)
    (fetch : Nat → Except Unit (Option UserRec)) : AdminOutcome × List String :=
  match sessionUserId with
  | none => (.unauthenticated, [])
  | some uid =>
    match fetch uid with
    | .error _ => (.internalError, ["Admin middleware error"])
    | .ok none => (.forbidden, ["ADMIN_ACCESS_DENIED"])
    | .ok (some u) =>
      if u.role == "admin" then (.ok u, []) else (.forbidden, ["ADMIN_ACCESS_DENIED"])

/-- Response status the boundary assigns to each middleware outcome; the
success case proceeds to the handler, marked 200 here. -/
def adminOutcomeStatus : AdminOutcome → Nat
  | .unauthenticated => 401
  | .forbidden => 403
  | .internalError => 500
  | .ok _ => 200

/-! The setup gate, from middleware.js lines 53-106, and the routing
surface of server.js. -/

/-- Identifier of each terminal route handler registered in server.js. -/
inductive Handler where
  | setupPage
  | loginPage
  | adminPage
  | apiSetupPost
  | apiAuthLogin
  | apiAuthLogout
  | apiAdminUsersList
  | apiAdminUsersCreate
  | apiAdminUsersUpdate
  | apiAdminUsersDelete
  | apiSettings
  | apiAdminSettings
  | apiTranslations
  | apiLanguage
  | apiAuthStatus
  | homePage
  | apiBrowse
  | download
deriving DecidableEq

/-- Terminal response of the middleware pipeline: either a handler runs, or
a middleware short-circuits with a redirect or a JSON body
`(status, success, requiresSetup, message, redirect)`. -/
inductive AppResponse where
  | redirectTo (loc : String)
  | json (status : Nat) (success : Bool) (requiresSetup : Bool)
      (message : String) (redirect : Option String)
  | ranHandler (h : Handler)
deriving DecidableEq

/-- The allow-list tested by `checkSetup` while setup is required
(middleware.js line 60). -/
def setupAllowList (path : String) : Bool :=
  path == "/setup" || strStartsWith path "/api/setup" ||
    strStartsWith path "/api/translations" || strStartsWith path "/api/language" ||
    strStartsWith path "/assets/"

/-- Result of one middleware: pass the request on, or answer it. -/
inductive GateStep where
  | proceed
  | blocked (r : AppResponse)
deriving DecidableEq

/-- Model of the `checkSetup` middleware (middleware.js lines 53-106).
The `Except` argument models the awaited database reads: an error takes
the catch branch.  Branch structure and every status, message and redirect
follow the source line by line. -/
def checkSetupMw (st : Except Unit SetupStatus) (path : String) : GateStep :=
  match st with
  | .error _ =>
    if strStartsWith path "/api/" then
      .blocked (.json 500 false false "Internal server error" none)
    else
      .blocked (.redirectTo "/setup")
  | .ok s =>
    if !(s.setupCompleted && s.hasAdmin) then
      if setupAllowList path then .proceed
      else if strStartsWith path "/api/" then
        .blocked (.json 200 false true "Initial setup required" (some "/setup"))
      else
        .blocked (.redirectTo "/setup")
    else
      if path == "/setup" || strStartsWith path "/api/setup" then
        if strStartsWith path "/api/" then
          .blocked (.json 403 false false "Setup already completed" none)
        else
          .blocked (.redirectTo "/")
      else
        .proceed

/-- Request context: the session user id and the user lookup available to
the admin middleware. -/
structure Ctx where
  sessionUserId : Option Nat
  fetch : Nat → Except Unit (Option UserRec)

/-- A context with no session and an empty store. -/
def emptyCtx : Ctx :=
  ⟨none, fun _ => .ok none⟩

/-- Model of the `requireAuth` middleware (middleware.js lines 5-20). -/
def requireAuthMw (ctx : Ctx) (path : String) : GateStep :=
  match ctx.sessionUserId with
  | some _ => .proceed
  | none =>
    if strStartsWith path "/api/" then
      .blocked (.json 401 false false "Authentication required" (some "/login"))
    else
      .blocked (.redirectTo "/login")

/-- The `requireAdmin` middleware as a pipeline stage, mapping each
outcome to the response emitted in middleware.js lines 23-50. -/
def requireAdminMw (ctx : Ctx) : GateStep :=
  match (requireAdmin ctx.sessionUserId ctx.fetch).1 with
  | .unauthenticated => .blocked (.json 401 false false "Authentication required" (some "/login"))
  | .forbidden => .blocked (.json 403 false false "Admin privileges required" none)
  | .internalError => .blocked (.json 500 false false "Internal server error" none)
  | .ok _ => .proceed

/-- The three route-level middlewares used in server.js. -/
inductive Mw where
  | checkSetup
  | requireAuth
  | requireAdmin
deriving DecidableEq

/-- A registered route: method, path matcher, middleware chain in
registration order, terminal handler. -/
structure Route where
  method : String
  matchesPath : String → Bool
  mws : List Mw
  handler : Handler

/-- The route table of server.js, in registration order (lines 101-534).
Only the routes listed here carry `checkSetup`; the others are registered
without it. -/
def routes : List Route :=
  [⟨"GET", (· == "/setup"), [.checkSetup], .setupPage⟩,
   ⟨"GET", (· == "/login"), [], .loginPage⟩,
   ⟨"GET", (· == "/admin"), [.requireAdmin], .adminPage⟩,
   ⟨"POST", (· == "/api/setup"), [], .apiSetupPost⟩,
   ⟨"POST", (· == "/api/auth/login"), [], .apiAuthLogin⟩,
   ⟨"POST", (· == "/api/auth/logout"), [.requireAuth], .apiAuthLogout⟩,
   ⟨"GET", (· == "/api/admin/users"), [.requireAdmin], .apiAdminUsersList⟩,
   ⟨"POST", (· == "/api/admin/users"), [.requireAdmin], .apiAdminUsersCreate⟩,
   ⟨"PUT", (fun p => strStartsWith p "/api/admin/users/"), [.requireAdmin], .apiAdminUsersUpdate⟩,
   ⟨"DELETE", (fun p => strStartsWith p "/api/admin/users/"), [.requireAdmin], .apiAdminUsersDelete⟩,
   ⟨"GET", (· == "/api/settings"), [], .apiSettings⟩,
   ⟨"PUT", (· == "/api/admin/settings"), [.requireAdmin], .apiAdminSettings⟩,
   ⟨"GET", (· == "/api/translations"), [], .apiTranslations⟩,
   ⟨"PUT", (· == "/api/language"), [], .apiLanguage⟩,
   ⟨"GET", (· == "/api/auth/status"), [], .apiAuthStatus⟩,
   ⟨"GET", (· == "/"), [.checkSetup, .requireAuth], .homePage⟩,
   ⟨"GET", (· == "/api/browse"), [.checkSetup, .requireAuth], .apiBrowse⟩,
   ⟨"GET", (fun p => strStartsWith p "/download/"), [.checkSetup, .requireAuth], .download⟩]

/-- Run a middleware chain; the first blocking middleware answers the
request, otherwise the handler is reached. -/
def runMws (st : Except Unit SetupStatus) (ctx : Ctx) (path : String) : List Mw → Option AppResponse
  | [] => none
  | m :: ms =>
    match (match m with
           | .checkSetup => checkSetupMw st path
           | .requireAuth => requireAuthMw ctx path
           | .requireAdmin => requireAdminMw ctx) with
    | .proceed => runMws st ctx path ms
    | .blocked r => some r

/-- Dispatch of one request through the route table: first matching route
wins, its middleware chain runs, then its handler; no route gives the 404
of server.js lines 546-551. -/
def dispatch (st : Except Unit SetupStatus) (ctx : Ctx) (method path : String) : AppResponse :=
  match routes.find? (fun r => r.method == method && r.matchesPath path) with
  | none => .json 404 false false "Not found" none
  | some r =>
    match runMws st ctx path r.mws with
    | some resp => resp
    | none => .ranHandler r.handler

/-! The setup API handler, server.js lines 116-155. -/

/-- Result of `POST /api/setup`.  A success records the created user (the
handler always passes role admin to `createUser`, server.js line 137) and
the setting write `setSetting(key, value, attributedTo)` of line 138. -/
inductive SetupApiResult where
  | alreadyCompleted
  | missingCredentials
  | success (newUser : UserRec) (settingKey : String) (settingValue : String) (attributedTo : Nat)
deriving DecidableEq

/-- Model of the `POST /api/setup` handler body (server.js lines 116-155).
The request is rejected with status 400 only when `isSetupCompleted` AND
`hasAdminUser` both hold; the falsy test on the credentials models the
JavaScript truthiness check of line 130; `newId` is the id the database
assigns to the created row.  The created user is active by default
(database.js line 54). -/
def apiSetup (st : SetupStatus) (username password : Option String) (newId : Nat) : SetupApiResult :=
  if st.setupCompleted && st.hasAdmin then .alreadyCompleted
  else if username.getD "" == "" || password.getD "" == "" then .missingCredentials
  else .success ⟨newId, username.getD "", "admin", true⟩ "setup_completed" "true" newId

/-! User deletion, server.js lines 292-323 and database.js lines 326-342. -/

/-- Result of `DELETE /api/admin/users/:id`: 400 on self-deletion, 404 when
no row changed, success otherwise. -/
inductive DeleteResult where
  | cannotDeleteSelf
  | notFound
  | deleted
deriving DecidableEq

/-- Model of `Database.deleteUser` (database.js lines 326-342): the SQL
`UPDATE users SET is_active = 0 WHERE id = ? AND role != "admin"` returns
the number of matched rows and deactivates exactly those rows; no row is
ever removed. -/
def dbDeleteUser (uid : Nat) (users : List UserRec) : Nat × List UserRec :=
  (users.countP (fun u => u.id == uid && u.role != "admin"),
   users.map (fun u => if u.id == uid && u.role != "admin" then { u with isActive := false } else u))

/-- Model of the `DELETE /api/admin/users/:id` handler (server.js lines
292-323), after `requireAdmin` has resolved the requester:
self-deletion is rejected first, then the database update runs and a zero
change count is reported as not found. -/
def deleteUserHandler (requesterId targetId : Nat) (users : List UserRec) : DeleteResult × List UserRec :=
  if targetId == requesterId then (.cannotDeleteSelf, users)
  else
    let r := dbDeleteUser targetId users
    if r.1 == 0 then (.notFound, r.2) else (.deleted, r.2)

/-- A sequence of deletion requests `(requesterId, targetId)` applied to
the user table in order. -/
def runDeletes : List (Nat × Nat) → List UserRec → List UserRec
  | [], users => users
  | op :: ops, users => runDeletes ops (deleteUserHandler op.1 op.2 users).2

/-! The rate limiter, middleware.js lines 124-174. -/

/-- Per-client window state kept by `createRateLimiter`:
`js client = { count, resetTime }`. -/
structure ClientWindow where
  count : Nat
  resetTime : Nat
deriving DecidableEq

/-- Model of one request through the limiter closure (middleware.js lines
137-164) for a single client key.  `none` is a client with no entry in the
map: it is stored with count 1 and allowed unconditionally.  Otherwise the
window is reset when `now > resetTime`, else the count is incremented, and
the request is rejected iff the updated count exceeds `maxReq`. -/
def rateLimitStep (windowMs maxReq : Nat) (st : Option ClientWindow) (now : Nat) : Bool × ClientWindow :=
  match st with
  | none => (true, ⟨1, now + windowMs⟩)
  | some c =>
    let c' := if c.resetTime < now then ClientWindow.mk 1 (now + windowMs)
              else ClientWindow.mk (c.count + 1) c.resetTime
    (decide (c'.count ≤ maxReq), c')

/-- Feed a list of request timestamps through the limiter, collecting the
allow/reject decision of each request and the final stored window. -/
def runLimiter (windowMs maxReq : Nat) (st : Option ClientWindow) : List Nat → List Bool × Option ClientWindow
  | [] => ([], st)
  | t :: ts =>
    let s := rateLimitStep windowMs maxReq st t
    let r := runLimiter windowMs maxReq (some s.2) ts
    (s.1 :: r.1, r.2)

/-! Helper lemmas. -/

theorem strStartsWith_of_descendant (anc p : String)
    (h : isDescendantOrSelf anc p = true) : strStartsWith p anc = true := by
  rcases Bool.or_eq_true_iff.mp h with h1 | h2
  · have : p = anc := eq_of_beq h1
    subst this
    exact List.isPrefixOf_iff_prefix.mpr List.prefix_rfl
  · have hp : (anc ++ "/").data.isPrefixOf p.data = true := h2
    have hpre : (anc.data ++ "/".data) <+: p.data := by
      have := List.isPrefixOf_iff_prefix.mp hp
      rwa [String.data_append] at this
    exact List.isPrefixOf_iff_prefix.mpr
      ((List.prefix_append anc.data "/".data).trans hpre)

/-! Claim C1.  The download handler resolves the raw requested path
(`path.resolve(NAS_ROOT, requestedPath)`, server.js line 504) while
`isValidPath` validated the resolution of the path with its leading
slashes stripped (line 93).  For a requested path with a leading slash the
two resolutions differ and the filesystem operations run on a path outside
the validated sandbox, so the claimed property fails on the code. -/

/-- C1: at the failing input `requestedPath = "/etc/passwd"` (reachable as
`GET /download//etc/passwd`), with the deployment constants taken as
`NAS_ROOT = "/srv/nas"` and server directory `"/srv/nas/CORS"`,
`isValidPath` accepts (it checks `/srv/nas/etc/passwd`, inside the root),
but the path the download handler then passes to `stat` and
`createReadStream` resolves to `/etc/passwd`, which does not lie within
`NAS_ROOT`.  The validated path and the used path are not the same. -/
theorem download_uses_unvalidated_resolution :
    isValidPath "/srv/nas" "/srv/nas/CORS" "/etc/passwd" = true ∧
    validationResolved "/srv/nas" "/etc/passwd" = "/srv/nas/etc/passwd" ∧
    downloadResolved "/srv/nas" "/etc/passwd" = "/etc/passwd" ∧
    strStartsWith (downloadResolved "/srv/nas" "/etc/passwd") "/srv/nas" = false := by
  decide

/-- C2 counterexample: the requested path `../bx` contains a `../` sequence
sufficient to escape the root `/a/b` (it resolves to the sibling `/a/bx`,
which is not the root nor below it), yet `isValidPath` accepts it, because
the string `/a/bx` starts with the string `/a/b`.  The claim that every
escaping path is rejected is therefore false on the code. -/
theorem pathGuard_escape_accepted_cex :
    hasInfixChars ("../").data ("../bx").data = true ∧
    isValidPath "/a/b" "/a/b/c" "../bx" = true ∧
    validationResolved "/a/b" "../bx" = "/a/bx" ∧
    isDescendantOrSelf "/a/b" (validationResolved "/a/b" "../bx") = false := by
  decide

/-- C2 amended: acceptance is decided exactly by the string-prefix test:
a requested path whose resolution does not start with the representation
of `root` is rejected (this covers every traversal except one landing on a
sibling whose name textually extends the name of `root`); a requested path
whose resolution lies within the `root` subtree and whose resolution does
not start with the representation of `excluded` is accepted, and the
accepted absolute path is exactly the resolution of the normalized
requested path against `root`. -/
theorem pathGuard_prefix_decision (root cors p : String) :
    (strStartsWith (validationResolved root p) root = false →
      isValidPath root cors p = false) ∧
    (isDescendantOrSelf root (validationResolved root p) = true →
      strStartsWith (validationResolved root p) cors = false →
      isValidPath root cors p = true) ∧
    isValidPath root cors p =
      (strStartsWith (validationResolved root p) root &&
        !(strStartsWith (validationResolved root p) cors)) := by
  refine ⟨?_, ?_, rfl⟩
  · intro h
    show (strStartsWith (validationResolved root p) root &&
      !(strStartsWith (validationResolved root p) cors)) = false
    rw [h]
    simp
  · intro h1 h2
    have hr := strStartsWith_of_descendant root _ h1
    show (strStartsWith (validationResolved root p) root &&
      !(strStartsWith (validationResolved root p) cors)) = true
    rw [hr, h2]
    simp

/-- Witness for the amended C2 at a concrete accepted path. -/
theorem pathGuard_prefix_decision_witness :
    isValidPath "/a/b" "/a/b/c" "docs/readme.txt" = true :=
  (pathGuard_prefix_decision "/a/b" "/a/b/c" "docs/readme.txt").2.1 (by decide) (by decide)

/-- C8: a requested path whose resolution lies inside both the root and the
excluded subtree (equal to the excluded directory or below it) is always
rejected: its resolved string starts with the representation of the
excluded directory, so the second conjunct of the prefix test fails. -/
theorem pathGuard_exclusion_precedence (root cors p : String)
    (hroot : isDescendantOrSelf root (validationResolved root p) = true)
    (hcors : isDescendantOrSelf cors (validationResolved root p) = true) :
    isValidPath root cors p = false := by
  have hc := strStartsWith_of_descendant cors _ hcors
  show (strStartsWith (validationResolved root p) root &&
    !(strStartsWith (validationResolved root p) cors)) = false
  rw [hc]
  simp

/-- Witness for C8: a path below the excluded server directory is rejected
although it is also below the root. -/
theorem pathGuard_exclusion_precedence_witness :
    isValidPath "/a/b" "/a/b/c" "c/d" = false :=
  pathGuard_exclusion_precedence "/a/b" "/a/b/c" "c/d" (by decide) (by decide)

/-- Helper for C7: the table state produced by one deletion request is
either the untouched table (self-deletion branch) or the table the SQL
update produced, whatever the change count was. -/
theorem deleteUserHandler_snd (r t : Nat) (users : List UserRec) :
    (deleteUserHandler r t users).2 =
      if t == r then users else (dbDeleteUser t users).2 := by
  unfold deleteUserHandler
  split
  · rfl
  · show (if ((dbDeleteUser t users).1 == 0) = true
        then (DeleteResult.notFound, (dbDeleteUser t users).2)
        else (DeleteResult.deleted, (dbDeleteUser t users).2)).2 = (dbDeleteUser t users).2
    split <;> rfl

/-- Helper for C7: one deletion request never alters a record whose role is
admin, because the SQL update filters on `role != "admin"` and the
self-deletion branch leaves the table untouched. -/
theorem admin_fixed_deleteUser (r t : Nat) (users : List UserRec) (u : UserRec)
    (hu : u ∈ users) (hrole : u.role = "admin") :
    u ∈ (deleteUserHandler r t users).2 := by
  rw [deleteUserHandler_snd]
  split
  · exact hu
  · show u ∈ users.map
      (fun u => if u.id == t && u.role != "admin" then { u with isActive := false } else u)
    exact List.mem_map.mpr ⟨u, hu, by simp [hrole]⟩

/-- C6: the admin check distinguishes three failure outcomes.  A missing
session user id yields Unauthenticated (401) without touching the store; a
lookup that resolves to no row — which, by the `is_active = 1` filter of
`getUserById`, covers both a missing and an inactive identity — or to a
row whose role is not admin yields Forbidden (403) with an access-denied
log entry; a rejected lookup (transport or storage failure) yields
InternalError (500), is logged, and is never Forbidden.  On success the
resolved identity is attached (carried in the `ok` outcome) with no
failure log.  The three failure outcomes map to three distinct codes. -/
theorem requireAdmin_outcomes :
    (∀ fetch, requireAdmin none fetch = (.unauthenticated, []) ∧
       adminOutcomeStatus (requireAdmin none fetch).1 = 401) ∧
    (∀ uid fetch, fetch uid = .ok none →
       requireAdmin (some uid) fetch = (.forbidden, ["ADMIN_ACCESS_DENIED"]) ∧
       adminOutcomeStatus (requireAdmin (some uid) fetch).1 = 403) ∧
    (∀ uid fetch u, fetch uid = .ok (some u) → u.role ≠ "admin" →
       requireAdmin (some uid) fetch = (.forbidden, ["ADMIN_ACCESS_DENIED"])) ∧
    (∀ users uid, (∀ u ∈ users, u.id = uid → u.isActive = false) →
       getUserById users uid = none) ∧
    (∀ uid fetch e, fetch uid = .error e →
       (requireAdmin (some uid) fetch).1 = .internalError ∧
       (requireAdmin (some uid) fetch).2 = ["Admin middleware error"] ∧
       (requireAdmin (some uid) fetch).1 ≠ .forbidden ∧
       adminOutcomeStatus (requireAdmin (some uid) fetch).1 = 500) ∧
    (∀ uid fetch u, fetch uid = .ok (some u) → u.role = "admin" →
       requireAdmin (some uid) fetch = (.ok u, [])) ∧
    (adminOutcomeStatus .unauthenticated = 401 ∧ adminOutcomeStatus .forbidden = 403 ∧
       adminOutcomeStatus .internalError = 500) := by
  refine ⟨?_, ?_, ?_, ?_, ?_, ?_, by simp [adminOutcomeStatus]⟩
  · intro fetch
    simp [requireAdmin, adminOutcomeStatus]
  · intro uid fetch h
    simp [requireAdmin, h, adminOutcomeStatus]
  · intro uid fetch u h hrole
    simp [requireAdmin, h, hrole]
  · intro users uid h
    apply List.find?_eq_none.mpr
    intro u hu
    by_cases hid : u.id = uid
    · simp [hid, h u hu hid]
    · simp [hid]
  · intro uid fetch e h
    simp [requireAdmin, h, adminOutcomeStatus]
  · intro uid fetch u h hrole
    simp [requireAdmin, h, hrole]

/-- Witness for C6 at a failing store: the transport failure outcome. -/
theorem requireAdmin_outcomes_witness :
    (requireAdmin (some 5) (fun _ => Except.error ())).1 = AdminOutcome.internalError ∧
    (requireAdmin (some 5) (fun _ => Except.error ())).2 = ["Admin middleware error"] ∧
    (requireAdmin (some 5) (fun _ => Except.error ())).1 ≠ AdminOutcome.forbidden ∧
    adminOutcomeStatus (requireAdmin (some 5) (fun _ => Except.error ())).1 = 500 :=
  requireAdmin_outcomes.2.2.2.2.1 5 (fun _ => Except.error ()) () rfl

/-- C7: deletion protections.  A request whose target id equals the
requester id is rejected with the table untouched; a request targeting an
id whose records all carry the admin role never reports a deletion (the
update matches no row); no deletion request ever removes a record or
changes an id, username or role — only the active flag can change; and
under every sequence of deletion requests every record with the admin role
survives unchanged, in particular it stays present and keeps its active
flag. -/
theorem deleteUser_admin_protection :
    (∀ r users, deleteUserHandler r r users = (.cannotDeleteSelf, users)) ∧
    (∀ r t users, (∀ u ∈ users, u.id = t → u.role = "admin") →
       (deleteUserHandler r t users).1 ≠ DeleteResult.deleted) ∧
    (∀ r t users, ((deleteUserHandler r t users).2).map (fun u => (u.id, u.username, u.role)) =
       users.map (fun u => (u.id, u.username, u.role))) ∧
    (∀ ops users u, u ∈ users → u.role = "admin" → u ∈ runDeletes ops users) := by
  refine ⟨?_, ?_, ?_, ?_⟩
  · intro r users
    simp [deleteUserHandler]
  · intro r t users h
    unfold deleteUserHandler
    by_cases h1 : (t == r) = true
    · simp [h1]
    · have hcount : users.countP (fun u => u.id == t && u.role != "admin") = 0 := by
        apply List.countP_eq_zero.mpr
        intro u hu
        by_cases hid : u.id = t
        · simp [hid, h u hu hid]
        · simp [hid]
      simp [h1, dbDeleteUser, hcount]
  · intro r t users
    rw [deleteUserHandler_snd]
    split
    · rfl
    · show (users.map
          (fun u => if u.id == t && u.role != "admin" then { u with isActive := false } else u)).map
            (fun u => (u.id, u.username, u.role)) =
          users.map (fun u => (u.id, u.username, u.role))
      rw [List.map_map]
      apply List.map_congr_left
      intro v _
      show (fun u => (u.id, u.username, u.role))
          (if v.id == t && v.role != "admin" then { v with isActive := false } else v) =
        (v.id, v.username, v.role)
      by_cases hc : (v.id == t && v.role != "admin") = true
      · rw [if_pos hc]
      · rw [if_neg hc]
  · intro ops
    induction ops with
    | nil => intro users u hu _; simpa [runDeletes] using hu
    | cons op ops ih =>
      intro users u hu hrole
      exact ih _ _ (admin_fixed_deleteUser op.1 op.2 users u hu hrole) hrole

/-- Witness for C7 on a concrete table: the self-deletion rejection, the
admin-target rejection, and survival of the admin under a burst of
deletion requests. -/
theorem deleteUser_admin_protection_witness :
    deleteUserHandler 1 1 [⟨1, "root", "admin", true⟩] =
      (DeleteResult.cannotDeleteSelf, [⟨1, "root", "admin", true⟩]) ∧
    (deleteUserHandler 2 1 [⟨1, "root", "admin", true⟩]).1 ≠ DeleteResult.deleted ∧
    (⟨1, "root", "admin", true⟩ : UserRec) ∈
      runDeletes [(2, 1), (3, 1), (2, 1)] [⟨1, "root", "admin", true⟩] :=
  ⟨deleteUser_admin_protection.1 1 [⟨1, "root", "admin", true⟩],
   deleteUser_admin_protection.2.1 2 1 [⟨1, "root", "admin", true⟩] (by decide),
   deleteUser_admin_protection.2.2.2 [(2, 1), (3, 1), (2, 1)] [⟨1, "root", "admin", true⟩]
     ⟨1, "root", "admin", true⟩ (by decide) rfl⟩

/-- C9: the setup operation is rejected as already completed only when the
completion flag is the string true AND an active admin exists; whenever at
least one condition fails, a request carrying a nonempty username and
password succeeds, creating a further account with role admin and writing
the completion flag attributed to the id of the new account. -/
theorem apiSetup_single_condition_succeeds :
    (∀ st u p i, apiSetup st u p i = SetupApiResult.alreadyCompleted →
       st.setupCompleted = true ∧ st.hasAdmin = true) ∧
    (∀ st uname pw i, ¬(st.setupCompleted = true ∧ st.hasAdmin = true) →
       uname ≠ "" → pw ≠ "" →
       apiSetup st (some uname) (some pw) i =
         SetupApiResult.success ⟨i, uname, "admin", true⟩ "setup_completed" "true" i) := by
  constructor
  · intro st u p i h
    by_cases hc : (st.setupCompleted && st.hasAdmin) = true
    · exact ⟨(Bool.and_eq_true _ _).mp hc |>.1, (Bool.and_eq_true _ _).mp hc |>.2⟩
    · exfalso
      unfold apiSetup at h
      rw [if_neg hc] at h
      by_cases hm : (u.getD "" == "" || p.getD "" == "") = true
      · rw [if_pos hm] at h
        exact SetupApiResult.noConfusion h
      · rw [if_neg hm] at h
        exact SetupApiResult.noConfusion h
  · intro st uname pw i hboth hu hp
    have hc : (st.setupCompleted && st.hasAdmin) = false := by
      rcases st with ⟨c, a⟩
      cases c <;> cases a <;> simp_all
    have hm : ((some uname).getD "" == "" || (some pw).getD "" == "") = false := by
      simp [hu, hp]
    unfold apiSetup
    rw [if_neg (by rw [hc]; exact Bool.false_ne_true), if_neg (by rw [hm]; exact Bool.false_ne_true)]
    rfl

/-- Witness for C9: an active admin already exists but the flag is not the
string true; the setup request succeeds and creates a second admin. -/
theorem apiSetup_single_condition_succeeds_witness :
    apiSetup ⟨false, true⟩ (some "admin2") (some "pw") 2 =
      SetupApiResult.success ⟨2, "admin2", "admin", true⟩ "setup_completed" "true" 2 :=
  apiSetup_single_condition_succeeds.2 ⟨false, true⟩ "admin2" "pw" 2 (by simp) (by decide) (by decide)

/-- Helper for C5: unfolding one limiter request. -/
theorem runLimiter_cons (w m : Nat) (st : Option ClientWindow) (t : Nat) (ts : List Nat) :
    runLimiter w m st (t :: ts) =
      ((rateLimitStep w m st t).1 :: (runLimiter w m (some (rateLimitStep w m st t).2) ts).1,
       (runLimiter w m (some (rateLimitStep w m st t).2) ts).2) := rfl

/-- Helper for C5: requests whose timestamps stay at or before the stored
reset time never reset the window; starting from a stored count `cnt`, the
k-th such request carries count `cnt + k` and is allowed exactly when that
count is within the budget. -/
theorem runLimiter_inWindow (w m r : Nat) :
    ∀ (ts : List Nat), (∀ t ∈ ts, t ≤ r) → ∀ cnt,
      runLimiter w m (some ⟨cnt, r⟩) ts =
        ((List.range ts.length).map (fun i => decide (cnt + i + 1 ≤ m)),
         some ⟨cnt + ts.length, r⟩) := by
  intro ts
  induction ts with
  | nil => intro _ cnt; simp [runLimiter]
  | cons t ts ih =>
    intro h cnt
    have ht : t ≤ r := h t (List.mem_cons_self t ts)
    have hts : ∀ x ∈ ts, x ≤ r := fun x hx => h x (List.mem_cons_of_mem t hx)
    have hstep : rateLimitStep w m (some ⟨cnt, r⟩) t = (decide (cnt + 1 ≤ m), ⟨cnt + 1, r⟩) := by
      have hnl : ¬ r < t := Nat.not_lt.mpr ht
      simp [rateLimitStep, hnl]
    rw [runLimiter_cons, hstep, ih hts (cnt + 1)]
    simp only [List.length_cons]
    refine congrArg₂ Prod.mk ?_ ?_
    · rw [List.range_succ_eq_map, List.map_cons, List.map_map]
      refine congrArg₂ List.cons ?_ ?_
      · show decide (cnt + 1 ≤ m) = decide (cnt + 0 + 1 ≤ m)
        exact decide_eq_decide.mpr (by omega)
      · apply List.map_congr_left
        intro i _
        show decide (cnt + 1 + i + 1 ≤ m) = decide (cnt + (i + 1) + 1 ≤ m)
        exact decide_eq_decide.mpr (by omega)
    · have harith : cnt + 1 + ts.length = cnt + (ts.length + 1) := by omega
      rw [harith]

/-- Helper for C5: a run whose first request is stored as a fresh window
with count 1 expiring at `t1 + w`, followed by requests inside that
window, allows request number `i + 1` exactly when `i + 1 ≤ m`. -/
theorem runLimiter_fresh (w m : Nat) (hm : 1 ≤ m) (st : Option ClientWindow) (t1 : Nat)
    (ts : List Nat) (hfirst : rateLimitStep w m st t1 = (true, ⟨1, t1 + w⟩))
    (hin : ∀ t ∈ ts, t ≤ t1 + w) :
    runLimiter w m st (t1 :: ts) =
      ((List.range (ts.length + 1)).map (fun i => decide (i + 1 ≤ m)),
       some ⟨ts.length + 1, t1 + w⟩) := by
  rw [runLimiter_cons, hfirst, runLimiter_inWindow w m (t1 + w) ts hin 1]
  refine congrArg₂ Prod.mk ?_ ?_
  · rw [List.range_succ_eq_map, List.map_cons, List.map_map]
    refine congrArg₂ List.cons ?_ ?_
    · show true = decide (0 + 1 ≤ m)
      exact (decide_eq_true (by omega)).symm
    · apply List.map_congr_left
      intro i _
      show decide (1 + i + 1 ≤ m) = decide (i + 1 + 1 ≤ m)
      exact decide_eq_decide.mpr (by omega)
  · rw [Nat.add_comm 1 ts.length]

/-- C5: the fixed-window behavior of `createRateLimiter` for one client
key, for every configured class `(windowMs, max)` with a positive budget
(the classes configured in middleware.js use 10, 1000 and 500).  Starting
with no stored window, a first request at `t1` and further requests at
times at most `t1 + windowMs`: request number `i + 1` is allowed exactly
when `i + 1 ≤ max`, so exactly the first `max` requests of the window are
allowed and every later one is rejected, and the stored window carries the
request count and the reset time `t1 + windowMs`.  As soon as a request
arrives strictly after the reset time it is allowed and the window is
reset to count 1 with the new reset time, whatever count had accumulated;
a full new window then behaves like the first one, allowing `max`
requests again. -/
theorem rateLimiter_fixed_window (w m : Nat) (hm : 1 ≤ m) (t1 : Nat) (ts : List Nat)
    (hin : ∀ t ∈ ts, t ≤ t1 + w) :
    runLimiter w m none (t1 :: ts) =
      ((List.range (ts.length + 1)).map (fun i => decide (i + 1 ≤ m)),
       some ⟨ts.length + 1, t1 + w⟩) ∧
    (∀ n t', t1 + w < t' →
      rateLimitStep w m (some ⟨n, t1 + w⟩) t' = (true, ⟨1, t' + w⟩)) ∧
    (∀ n t' ts', t1 + w < t' → (∀ t ∈ ts', t ≤ t' + w) →
      runLimiter w m (some ⟨n, t1 + w⟩) (t' :: ts') =
        ((List.range (ts'.length + 1)).map (fun i => decide (i + 1 ≤ m)),
         some ⟨ts'.length + 1, t' + w⟩)) := by
  have hreset : ∀ n t', t1 + w < t' →
      rateLimitStep w m (some ⟨n, t1 + w⟩) t' = (true, ⟨1, t' + w⟩) := by
    intro n t' h'
    have hd : decide (1 ≤ m) = true := decide_eq_true hm
    simp [rateLimitStep, h', hd]
  refine ⟨?_, hreset, ?_⟩
  · exact runLimiter_fresh w m hm none t1 ts rfl hin
  · intro n t' ts' h' hin'
    exact runLimiter_fresh w m hm (some ⟨n, t1 + w⟩) t' ts' (hreset n t' h') hin'

/-- Witness for C5 with budget 2 and window 100: requests at 0, 1, 2, 3
give allowed, allowed, rejected, rejected; a request at 101 resets the
window and is allowed. -/
theorem rateLimiter_fixed_window_witness :
    runLimiter 100 2 none [0, 1, 2, 3] = ([true, true, false, false], some ⟨4, 100⟩) ∧
    rateLimitStep 100 2 (some ⟨4, 100⟩) 101 = (true, ⟨1, 201⟩) := by
  have h := rateLimiter_fixed_window 100 2 (by omega) 0 [1, 2, 3] (by decide)
  constructor
  · rw [show ([0, 1, 2, 3] : List Nat) = 0 :: [1, 2, 3] from rfl, h.1]
    decide
  · exact h.2.1 4 101 (by omega)

/-- Helper for C3 and C10: while setup is required (flag not completed or
no active admin), `checkSetup` blocks every path outside the allow-list:
API paths get the 200 requires-setup body, page paths the redirect. -/
theorem checkSetupMw_required (st : SetupStatus) (p : String)
    (hreq : st.setupCompleted = false ∨ st.hasAdmin = false)
    (hallow : setupAllowList p = false) :
    checkSetupMw (Except.ok st) p =
      GateStep.blocked
        (if strStartsWith p "/api/" = true then
          AppResponse.json 200 false true "Initial setup required" (some "/setup")
        else AppResponse.redirectTo "/setup") := by
  have hc : (st.setupCompleted && st.hasAdmin) = false := by
    rcases hreq with h | h <;> simp [h]
  by_cases hapi : strStartsWith p "/api/" = true
  · simp [checkSetupMw, hc, hallow, hapi]
  · simp [checkSetupMw, hc, hallow, hapi]

/-- C10: while the system is in the setup-required state, an API request
outside the allow-list that reaches the setup gate is answered with HTTP
status 200 — not a 4xx and not a redirect — carrying the body
`success = false`, `requiresSetup = true`, the setup message and the
redirect hint `/setup`; the blocked state is visible only in the body. -/
theorem checkSetup_api_blocked_status_200 (st : SetupStatus) (p : String)
    (hreq : st.setupCompleted = false ∨ st.hasAdmin = false)
    (hapi : strStartsWith p "/api/" = true)
    (hallow : setupAllowList p = false) :
    checkSetupMw (Except.ok st) p =
      GateStep.blocked (AppResponse.json 200 false true "Initial setup required" (some "/setup")) := by
  have h := checkSetupMw_required st p hreq hallow
  rwa [if_pos hapi] at h

/-- Witness for C10: no admin exists yet and the settings API is hit. -/
theorem checkSetup_api_blocked_status_200_witness :
    checkSetupMw (Except.ok ⟨false, false⟩) "/api/settings" =
      GateStep.blocked (AppResponse.json 200 false true "Initial setup required" (some "/setup")) :=
  checkSetup_api_blocked_status_200 ⟨false, false⟩ "/api/settings" (Or.inl rfl) (by decide) (by decide)

/-- C3 counterexample: the setup gate is not global.  During the
setup-required state (no admin, flag not set), a request to `GET /login`
and a request to `GET /api/settings` — both outside the allow-list — are
not redirected or blocked: their own handlers execute, because neither
route is registered with the `checkSetup` middleware. -/
theorem setupGate_unwrapped_routes_cex :
    setupAllowList "/login" = false ∧
    setupAllowList "/api/settings" = false ∧
    dispatch (Except.ok ⟨false, false⟩) emptyCtx "GET" "/login" =
      AppResponse.ranHandler Handler.loginPage ∧
    dispatch (Except.ok ⟨false, false⟩) emptyCtx "GET" "/api/settings" =
      AppResponse.ranHandler Handler.apiSettings := by
  refine ⟨by decide, by decide, rfl, rfl⟩

/-- C3 amended: during the setup-required state the gating holds exactly
for the routes registered with `checkSetup` (`GET /setup`, `GET /`,
`GET /api/browse`, `GET /download/*`): for every such route, every request
path outside the allow-list is answered by the gate — the requires-setup
body for API paths, the redirect to `/setup` otherwise — before any later
middleware or the handler runs; `/setup` itself is on the allow-list and
serves the setup page.  Routes registered without `checkSetup` are not
gated (see the counterexample). -/
theorem setupGate_wrapped_routes_blocked :
    (∀ r, r ∈ routes → Mw.checkSetup ∈ r.mws →
      ∀ (st : SetupStatus) (ctx : Ctx) (p : String),
        (st.setupCompleted = false ∨ st.hasAdmin = false) → setupAllowList p = false →
        runMws (Except.ok st) ctx p r.mws =
          some (if strStartsWith p "/api/" = true then
              AppResponse.json 200 false true "Initial setup required" (some "/setup")
            else AppResponse.redirectTo "/setup")) ∧
    (∀ (st : SetupStatus) (ctx : Ctx),
      (st.setupCompleted = false ∨ st.hasAdmin = false) →
      dispatch (Except.ok st) ctx "GET" "/" = AppResponse.redirectTo "/setup" ∧
      dispatch (Except.ok st) ctx "GET" "/api/browse" =
        AppResponse.json 200 false true "Initial setup required" (some "/setup") ∧
      dispatch (Except.ok st) ctx "GET" "/download/data/file.bin" =
        AppResponse.redirectTo "/setup" ∧
      dispatch (Except.ok st) ctx "GET" "/setup" = AppResponse.ranHandler Handler.setupPage) := by
  constructor
  · intro r hr hcs st ctx p hreq hallow
    have hblock := checkSetupMw_required st p hreq hallow
    simp only [routes] at hr
    fin_cases hr <;>
      first
        | exact absurd hcs (by decide)
        | simp only [runMws, hblock]
  · intro st ctx hreq
    rcases st with ⟨c, a⟩
    cases c <;> cases a
    · exact ⟨rfl, rfl, rfl, rfl⟩
    · exact ⟨rfl, rfl, rfl, rfl⟩
    · exact ⟨rfl, rfl, rfl, rfl⟩
    · rcases hreq with h | h <;> exact absurd h (by decide)

/-- Witness for the amended C3: with an active admin but no completion
flag, the wrapped routes are gated. -/
theorem setupGate_wrapped_routes_blocked_witness :
    runMws (Except.ok ⟨false, true⟩) emptyCtx "/somefile" [Mw.checkSetup] =
      some (AppResponse.redirectTo "/setup") ∧
    dispatch (Except.ok ⟨false, true⟩) emptyCtx "GET" "/" = AppResponse.redirectTo "/setup" ∧
    dispatch (Except.ok ⟨false, true⟩) emptyCtx "GET" "/api/browse" =
      AppResponse.json 200 false true "Initial setup required" (some "/setup") := by
  refine ⟨?_, ?_, ?_⟩
  · have h := setupGate_wrapped_routes_blocked.1
      ⟨"GET", (· == "/setup"), [Mw.checkSetup], Handler.setupPage⟩
      (List.mem_cons_self _ _) (by decide) ⟨false, true⟩ emptyCtx "/somefile" (Or.inl rfl)
      (by decide)
    rwa [if_neg (by decide)] at h
  · exact (setupGate_wrapped_routes_blocked.2 ⟨false, true⟩ emptyCtx (Or.inl rfl)).1
  · exact (setupGate_wrapped_routes_blocked.2 ⟨false, true⟩ emptyCtx (Or.inl rfl)).2.1

/-- C4 counterexample: the blocking of the setup endpoints is not
permanent.  After the completion flag has been cleared out-of-band (the
stored value is no longer the string true) while an active admin still
exists, the gate recomputes the two conditions and is back in the
setup-required state: `GET /setup` serves the setup page again, and the
setup submission succeeds again, creating a further admin account —
instead of remaining blocked as the claim states. -/
theorem setupGate_not_permanent_cex :
    isSetupCompleted [("setup_completed", "false")] = false ∧
    hasAdminUser [⟨1, "root", "admin", true⟩] = true ∧
    dispatch
      (Except.ok (setupStatusOf [("setup_completed", "false")] [⟨1, "root", "admin", true⟩]))
      emptyCtx "GET" "/setup" = AppResponse.ranHandler Handler.setupPage ∧
    apiSetup (setupStatusOf [("setup_completed", "false")] [⟨1, "root", "admin", true⟩])
      (some "intruder") (some "pw") 2 =
      SetupApiResult.success ⟨2, "intruder", "admin", true⟩ "setup_completed" "true" 2 := by
  refine ⟨rfl, rfl, rfl, rfl⟩

/-- C4 amended: while both conditions hold (flag is the string true and an
active admin exists), `GET /setup` is redirected home by the gate and the
setup submission is rejected as already completed — with status 400 from
the handler itself, which is registered without `checkSetup`, so the
request always reaches it.  The gate recomputes both conditions on every
request, so this blocking lasts only as long as both conditions hold:
clearing the flag out-of-band returns the system to the setup-required
state and `GET /setup` serves the setup page again. -/
theorem setupGate_operational_blocks :
    (∀ (st : SetupStatus) (ctx : Ctx), st.setupCompleted = true → st.hasAdmin = true →
      dispatch (Except.ok st) ctx "GET" "/setup" = AppResponse.redirectTo "/" ∧
      dispatch (Except.ok st) ctx "POST" "/api/setup" =
        AppResponse.ranHandler Handler.apiSetupPost ∧
      ∀ u p i, apiSetup st u p i = SetupApiResult.alreadyCompleted) ∧
    (∀ ctx : Ctx,
      dispatch
        (Except.ok (setupStatusOf [("setup_completed", "false")] [⟨1, "root", "admin", true⟩]))
        ctx "GET" "/setup" = AppResponse.ranHandler Handler.setupPage) := by
  constructor
  · intro st ctx hc ha
    rcases st with ⟨c, a⟩
    cases hc
    cases ha
    exact ⟨rfl, rfl, fun u p i => rfl⟩
  · intro ctx
    rfl

/-- Witness for the amended C4 in the operational state. -/
theorem setupGate_operational_blocks_witness :
    dispatch (Except.ok ⟨true, true⟩) emptyCtx "GET" "/setup" = AppResponse.redirectTo "/" ∧
    apiSetup ⟨true, true⟩ (some "u") (some "p") 9 = SetupApiResult.alreadyCompleted :=
  ⟨(setupGate_operational_blocks.1 ⟨true, true⟩ emptyCtx rfl rfl).1,
   (setupGate_operational_blocks.1 ⟨true, true⟩ emptyCtx rfl rfl).2.2 (some "u") (some "p") 9⟩
